import Mathlib

/-!
Verification of the ChessAppServer core (src/index.js): the engine pool with
FIFO waiting queue, the best-move HTTP handler, and the WebSocket room
state machine. Engines and WebSocket connections are identified by natural
numbers; JS Maps are modelled as association lists with unique keys
maintained by the operations themselves.
-/

namespace ChessAppServer

/-! ## Engine pool (src/index.js lines 15-56) -/

/-- State of the engine pool: `enginePool` is the array of idle engines
(JS `push` appends at the end, `pop` removes from the end) and
`waitingQueue` is the array of suspended acquirers, identified by caller id
(JS `push` appends, `shift` removes from the front). -/
structure PoolState where
  enginePool : List Nat
  waitingQueue : List Nat
deriving DecidableEq, Repr

/-- Pool state after the startup loop pushed `n` freshly initialized engines. -/
def initPoolState (n : Nat) : PoolState :=
  { enginePool := List.range n, waitingQueue := [] }

/-- Model of `acquireEngine` (lines 38-46): if the idle array is non-empty,
pop its last element and resolve immediately (`some engine`); otherwise
append the caller's resolver to the waiting queue and suspend (`none`). -/
def acquireEngine (caller : Nat) (s : PoolState) : Option Nat × PoolState :=
  match s.enginePool.getLast? with
  | some e => (some e, { s with enginePool := s.enginePool.dropLast })
  | none => (none, { s with waitingQueue := s.waitingQueue ++ [caller] })

/-- Model of `releaseEngine` (lines 49-56): if the waiting queue is
non-empty, shift its first resolver and hand it the engine (returned as
`some (caller, engine)`); otherwise push the engine back onto the idle
array. -/
def releaseEngine (engine : Nat) (s : PoolState) : Option (Nat × Nat) × PoolState :=
  match s.waitingQueue with
  | resolver :: rest => (some (resolver, engine), { s with waitingQueue := rest })
  | [] => (none, { s with enginePool := s.enginePool ++ [engine] })

/-- Pool invariant: a borrow request is only queued while no engine is idle. -/
def poolInvariant (s : PoolState) : Prop :=
  s.enginePool ≠ [] → s.waitingQueue = []

instance (s : PoolState) : Decidable (poolInvariant s) := by
  unfold poolInvariant; infer_instance

/-! ## Best-move HTTP handler (src/index.js lines 59-86) -/

/-- Responses the `/best-move` route can produce. -/
inductive HttpResponse where
  | badRequest (error : String)
  | serverError (error : String)
  | okMove (mv : String)
deriving DecidableEq, Repr

/-- HTTP status code attached to each response shape in the source
(`res.status(400)`, `res.status(500)`, default 200 for `res.json`). -/
def statusOf : HttpResponse → Nat
  | .badRequest _ => 400
  | .serverError _ => 500
  | .okMove _ => 200

/-- JS truthiness test `!fen`: true when the field is absent or the empty
string. -/
def fenMissing : Option String → Bool
  | none => true
  | some f => f = ""

/-- Result of one handler run: the response sent (none while the run is
still suspended inside `acquireEngine`), the engine acquired if any, the
list of engines passed to `releaseEngine` in order, and the final pool. -/
structure HandlerRun where
  response : Option HttpResponse
  acquired : Option Nat
  releases : List Nat
  finalPool : PoolState
deriving DecidableEq, Repr

/-- Body of the handler from the point an engine is held (the `try` block
running `engine.position(fen)` then `engine.go(...)`, the `catch` mapping
any thrown error to a 500 `Engine error` response, and the `finally`
calling `releaseEngine(engine)`). The outcomes of the two awaited engine
exchanges are inputs: `positionResult` and `goResult` are `.error` when the
corresponding await rejects, and `goResult`'s payload is `result.bestmove`. -/
def bestMoveWithEngine (engine : Nat) (positionResult : Except String Unit)
    (goResult : Except String String) (s : PoolState) :
    HttpResponse × List Nat × PoolState :=
  let tryOutcome : Except String HttpResponse := do
    let _u ← positionResult
    let bestMove ← goResult
    pure (HttpResponse.okMove bestMove)
  let response := match tryOutcome with
    | .ok r => r
    | .error _e => HttpResponse.serverError "Engine error"
  (response, [engine], (releaseEngine engine s).2)

/-- Model of the whole `/best-move` route: validate `fen`, acquire an
engine (suspending when none is idle, in which case no response is issued
yet), then run `bestMoveWithEngine`. -/
def bestMoveHandler (caller : Nat) (fen : Option String)
    (positionResult : Except String Unit) (goResult : Except String String)
    (s : PoolState) : HandlerRun :=
  if fenMissing fen then
    { response := some (.badRequest "Missing FEN string"), acquired := none,
      releases := [], finalPool := s }
  else
    match acquireEngine caller s with
    | (some engine, s1) =>
      let (resp, rels, s2) := bestMoveWithEngine engine positionResult goResult s1
      { response := some resp, acquired := some engine, releases := rels, finalPool := s2 }
    | (none, s1) =>
      { response := none, acquired := none, releases := [], finalPool := s1 }

/-! ## Association-list model of JS `Map` and of per-connection attributes -/

/-- Lookup by key, first match (JS `Map.get`). -/
def mapGet {κ α : Type} [DecidableEq κ] : List (κ × α) → κ → Option α
  | [], _ => none
  | e :: rest, k => if e.1 = k then some e.2 else mapGet rest k

/-- Set a key (JS `Map.set`): replace the first binding of the key, or
append a new binding when absent. -/
def mapSet {κ α : Type} [DecidableEq κ] : List (κ × α) → κ → α → List (κ × α)
  | [], k, v => [(k, v)]
  | e :: rest, k, v => if e.1 = k then (k, v) :: rest else e :: mapSet rest k v

/-- Remove a key (JS `Map.delete`). -/
def mapDelete {κ α : Type} [DecidableEq κ] (m : List (κ × α)) (k : κ) : List (κ × α) :=
  m.filter (fun e => e.1 != k)

/-! ## WebSocket rooms (src/index.js lines 89-211) -/

/-- The canonical chess starting position (line 95). -/
def INITIAL_FEN : String :=
  "rnbqkbnr/pppppppp/8/8/8/8/PPPPPPPP/RNBQKBNR w KQkq - 0 1"

/-- One room: `players` in join order (ws handles modelled as `Nat`),
`fen` the current position string, `turn` the color to move (the source
stores the strings "w" and "b"). -/
structure Room where
  players : List Nat
  fen : String
  turn : String
deriving DecidableEq, Repr

/-- The ad hoc mutable attributes the source bolts onto each ws object:
`ws.color` and `ws.roomId`, both undefined (`none`) before the first join. -/
structure ConnAttr where
  color : Option String
  roomId : Option String
deriving DecidableEq, Repr

/-- Whole WebSocket-side state: the `rooms` map plus each connection's
attributes. -/
structure WsState where
  rooms : List (String × Room)
  attrs : List (Nat × ConnAttr)
deriving DecidableEq, Repr

/-- Attributes of a connection, defaulting to both-undefined. -/
def getAttr (s : WsState) (c : Nat) : ConnAttr :=
  (mapGet s.attrs c).getD { color := none, roomId := none }

/-- Messages the server sends over a ws connection. -/
inductive ServerMsg where
  | errorMsg (message : String)
  | joined (color : String) (fen : String) (turn : String)
  | opponentMove (mfrom : String) (mto : String) (newFen : String)
deriving DecidableEq, Repr

/-- Parsed client commands; `unknown` stands for any `type` string other
than the three recognized ones. A message whose JSON parsing (or payload
destructuring) throws is modelled upstream as `none : Option ClientCmd`. -/
inductive ClientCmd where
  | join (roomId : String)
  | move (roomId : String) (mfrom : String) (mto : String) (newFen : String)
  | leave (roomId : String)
  | unknown (ty : String)
deriving DecidableEq, Repr

/-- The `case 'join'` branch (lines 106-137): create the room if absent
(empty players, initial fen, turn "w"); reject with "房间已满" when it
already holds 2 players; otherwise assign "w" to the first joiner and "b"
to the second, set `ws.color` / `ws.roomId`, push the ws, and reply
`joined` with the room's current fen and turn. -/
def handleJoin (c : Nat) (rid : String) (s : WsState) : WsState × List (Nat × ServerMsg) :=
  let rooms1 := if (mapGet s.rooms rid).isSome then s.rooms
    else mapSet s.rooms rid { players := [], fen := INITIAL_FEN, turn := "w" }
  match mapGet rooms1 rid with
  | none => ({ s with rooms := rooms1 }, [])
  | some room =>
    if room.players.length ≥ 2 then
      ({ s with rooms := rooms1 }, [(c, .errorMsg "房间已满")])
    else
      let color := if room.players.length = 0 then "w" else "b"
      let attrs1 := mapSet s.attrs c { color := some color, roomId := some rid }
      let room1 := { room with players := room.players ++ [c] }
      ({ rooms := mapSet rooms1 rid room1, attrs := attrs1 },
       [(c, .joined color room1.fen room1.turn)])

/-- The ternary `room.turn === 'w' ? 'b' : 'w'` (line 152). -/
def flipTurn (turn : String) : String :=
  if turn = "w" then "b" else "w"

/-- The `case 'move'` branch (lines 139-170): silently return when the
room does not exist; reject with "还没轮到你走" when `ws.color !== room.turn`
(an unset `ws.color` also fails this strict comparison); otherwise store
`newFen` verbatim, flip the turn, and send `opponentMove` to every entry
of `room.players` other than the sender. -/
def handleMove (c : Nat) (rid mfrom mto newFen : String) (s : WsState) :
    WsState × List (Nat × ServerMsg) :=
  match mapGet s.rooms rid with
  | none => (s, [])
  | some room =>
    if (getAttr s c).color ≠ some room.turn then
      (s, [(c, .errorMsg "还没轮到你走")])
    else
      let room1 := { room with fen := newFen, turn := flipTurn room.turn }
      ({ s with rooms := mapSet s.rooms rid room1 },
       (room.players.filter (fun p => p != c)).map
         (fun p => (p, ServerMsg.opponentMove mfrom mto room1.fen)))

/-- The `case 'leave'` branch (lines 172-183): silently return when the
room does not exist; otherwise filter the ws out of `players` and delete
the room when it became empty. No reply, and `ws.color` / `ws.roomId` are
left as they were. -/
def handleLeave (c : Nat) (rid : String) (s : WsState) : WsState × List (Nat × ServerMsg) :=
  match mapGet s.rooms rid with
  | none => (s, [])
  | some room =>
    let players1 := room.players.filter (fun p => p != c)
    if players1.isEmpty then
      ({ s with rooms := mapDelete s.rooms rid }, [])
    else
      ({ s with rooms := mapSet s.rooms rid { room with players := players1 } }, [])

/-- One inbound ws message (lines 100-191). `none` is a message whose
handling threw before dispatch (JSON parse failure, missing payload): the
`catch` only logs, sending nothing and changing nothing. The `default`
branch replies "未知消息类型". The result pairs the new state with the list
of `(recipient, message)` sends in order. -/
def handleMessage (c : Nat) (cmd : Option ClientCmd) (s : WsState) :
    WsState × List (Nat × ServerMsg) :=
  match cmd with
  | none => (s, [])
  | some (.join rid) => handleJoin c rid s
  | some (.move rid mfrom mto newFen) => handleMove c rid mfrom mto newFen s
  | some (.leave rid) => handleLeave c rid s
  | some (.unknown _ty) => (s, [(c, .errorMsg "未知消息类型")])

/-- The `ws.on('close')` handler (lines 193-209): read `ws.roomId`; the
guard `if (roomId && rooms.has(roomId))` skips the cleanup when `roomId`
is undefined or the (falsy) empty string; otherwise filter the ws out of
the room's players and delete the room when it became empty. -/
def handleClose (c : Nat) (s : WsState) : WsState :=
  match (getAttr s c).roomId with
  | none => s
  | some rid =>
    if rid = "" then s
    else
      match mapGet s.rooms rid with
      | none => s
      | some room =>
        let players1 := room.players.filter (fun p => p != c)
        if players1.isEmpty then { s with rooms := mapDelete s.rooms rid }
        else { s with rooms := mapSet s.rooms rid { room with players := players1 } }

/-- An outbound message is an error signal exactly when it is the
`{type:'error', message}` shape. -/
def isErrorMsg : ServerMsg → Bool
  | .errorMsg _ => true
  | _ => false

/-- The session-size invariant: every registered room holds at most two
players. -/
def roomsBounded (m : List (String × Room)) : Prop :=
  ∀ e ∈ m, e.2.players.length ≤ 2

instance (m : List (String × Room)) : Decidable (roomsBounded m) := by
  unfold roomsBounded
  infer_instance

/-- A sample session with both seats taken, for instantiating theorems on
concrete states: connections 0 ("w") and 1 ("b") joined room "r1". -/
def sampleFull : WsState :=
  { rooms := [("r1", { players := [0, 1], fen := INITIAL_FEN, turn := "w" })],
    attrs := [(0, { color := some "w", roomId := some "r1" }),
              (1, { color := some "b", roomId := some "r1" })] }

/-- A sample session with one seat taken: connection 0 ("w") joined
room "r1". -/
def sampleOne : WsState :=
  { rooms := [("r1", { players := [0], fen := INITIAL_FEN, turn := "w" })],
    attrs := [(0, { color := some "w", roomId := some "r1" })] }

/-! ## Helper lemmas on the map model -/

theorem mapGet_mapSet_self {κ α : Type} [DecidableEq κ] (m : List (κ × α)) (k : κ) (v : α) :
    mapGet (mapSet m k v) k = some v := by
  induction m with
  | nil => simp [mapSet, mapGet]
  | cons e rest ih =>
    by_cases h : e.1 = k
    · simp [mapSet, mapGet, h]
    · simp [mapSet, mapGet, h, ih]

theorem mapGet_mapSet_other {κ α : Type} [DecidableEq κ] (m : List (κ × α)) (k k' : κ)
    (v : α) (hne : k ≠ k') : mapGet (mapSet m k v) k' = mapGet m k' := by
  induction m with
  | nil => simp [mapSet, mapGet, hne]
  | cons e rest ih =>
    by_cases h : e.1 = k
    · simp [mapSet, mapGet, h, hne]
    · simp [mapSet, mapGet, h, ih]

theorem mapSet_eq_self {κ α : Type} [DecidableEq κ] (m : List (κ × α)) (k : κ) (v : α)
    (h : mapGet m k = some v) : mapSet m k v = m := by
  induction m with
  | nil => simp [mapGet] at h
  | cons e rest ih =>
    rcases e with ⟨e1, e2⟩
    by_cases he : e1 = k
    · simp [mapGet, he] at h
      subst he
      subst h
      simp [mapSet]
    · simp [mapGet, he] at h
      simp [mapSet, he, ih h]

theorem mapGet_mapDelete_self {κ α : Type} [DecidableEq κ] (m : List (κ × α)) (k : κ) :
    mapGet (mapDelete m k) k = none := by
  induction m with
  | nil => simp [mapDelete, mapGet]
  | cons e rest ih =>
    by_cases h : e.1 = k
    · simpa [mapDelete, h] using ih
    · simpa [mapDelete, mapGet, h] using ih

theorem mem_mapSet {κ α : Type} [DecidableEq κ] {m : List (κ × α)} {k : κ} {v : α}
    {e : κ × α} (h : e ∈ mapSet m k v) : e = (k, v) ∨ e ∈ m := by
  induction m with
  | nil => simpa [mapSet] using h
  | cons e' rest ih =>
    by_cases he : e'.1 = k
    · simp [mapSet, he] at h
      rcases h with h | h
      · exact Or.inl h
      · exact Or.inr (List.mem_cons_of_mem _ h)
    · simp [mapSet, he] at h
      rcases h with h | h
      · exact Or.inr (by simp [h])
      · rcases ih h with h' | h'
        · exact Or.inl h'
        · exact Or.inr (List.mem_cons_of_mem _ h')

theorem mem_mapDelete {κ α : Type} [DecidableEq κ] {m : List (κ × α)} {k : κ}
    {e : κ × α} (h : e ∈ mapDelete m k) : e ∈ m :=
  List.mem_of_mem_filter h

theorem mapSet_mapSet {κ α : Type} [DecidableEq κ] (m : List (κ × α)) (k : κ) (v v' : α) :
    mapSet (mapSet m k v) k v' = mapSet m k v' := by
  induction m with
  | nil => simp [mapSet]
  | cons e rest ih =>
    by_cases h : e.1 = k
    · simp [mapSet, h]
    · simp [mapSet, h, ih]

theorem roomsBounded_mapSet {m : List (String × Room)} {k : String} {room1 : Room}
    (h : roomsBounded m) (hr : room1.players.length ≤ 2) :
    roomsBounded (mapSet m k room1) := by
  intro e he
  rcases mem_mapSet he with h' | h'
  · rw [h']
    exact hr
  · exact h e h'

theorem roomsBounded_mapDelete {m : List (String × Room)} {k : String}
    (h : roomsBounded m) : roomsBounded (mapDelete m k) :=
  fun e he => h e (mem_mapDelete he)

theorem count_map_pair (l : List Nat) (p : Nat) (msg : ServerMsg) :
    ((l.map (fun q => (q, msg))).count (p, msg)) = l.count p := by
  induction l with
  | nil => rfl
  | cons a l ih =>
    by_cases hap : a = p
    · subst hap
      simp [List.count_cons, ih]
    · simp [List.count_cons, ih, hap]

theorem mapGet_mem {κ α : Type} [DecidableEq κ] {m : List (κ × α)} {k : κ} {v : α}
    (h : mapGet m k = some v) : (k, v) ∈ m := by
  induction m with
  | nil => simp [mapGet] at h
  | cons e rest ih =>
    rcases e with ⟨e1, e2⟩
    by_cases he : e1 = k
    · simp [mapGet, he] at h
      subst he
      subst h
      exact List.mem_cons_self _ _
    · simp [mapGet, he] at h
      exact List.mem_cons_of_mem _ (ih h)

/-! ## Branch characterizations of the room handlers -/

theorem handleJoin_eq_of_none (c : Nat) (rid : String) (s : WsState)
    (h : mapGet s.rooms rid = none) :
    handleJoin c rid s =
      ({ rooms := mapSet s.rooms rid { players := [c], fen := INITIAL_FEN, turn := "w" },
         attrs := mapSet s.attrs c { color := some "w", roomId := some rid } },
       [(c, ServerMsg.joined "w" INITIAL_FEN "w")]) := by
  simp [handleJoin, h, mapGet_mapSet_self, mapSet_mapSet]

theorem handleJoin_eq_of_full (c : Nat) (rid : String) (s : WsState) (room : Room)
    (h : mapGet s.rooms rid = some room) (hlen : room.players.length ≥ 2) :
    handleJoin c rid s = (s, [(c, ServerMsg.errorMsg "房间已满")]) := by
  simp [handleJoin, h, hlen]

theorem handleJoin_eq_of_space (c : Nat) (rid : String) (s : WsState) (room : Room)
    (h : mapGet s.rooms rid = some room) (hlen : ¬ room.players.length ≥ 2) :
    handleJoin c rid s =
      ({ rooms := mapSet s.rooms rid { room with players := room.players ++ [c] },
         attrs := mapSet s.attrs c
           { color := some (if room.players.length = 0 then "w" else "b"),
             roomId := some rid } },
       [(c, ServerMsg.joined (if room.players.length = 0 then "w" else "b")
           room.fen room.turn)]) := by
  simp [handleJoin, h, hlen]

theorem handleMove_eq_of_none (c : Nat) (rid mfrom mto newFen : String) (s : WsState)
    (h : mapGet s.rooms rid = none) :
    handleMove c rid mfrom mto newFen s = (s, []) := by
  simp [handleMove, h]

theorem handleMove_eq_of_wrong_turn (c : Nat) (rid mfrom mto newFen : String)
    (s : WsState) (room : Room) (h : mapGet s.rooms rid = some room)
    (ht : (getAttr s c).color ≠ some room.turn) :
    handleMove c rid mfrom mto newFen s = (s, [(c, ServerMsg.errorMsg "还没轮到你走")]) := by
  simp [handleMove, h, ht]

theorem handleMove_eq_of_turn (c : Nat) (rid mfrom mto newFen : String)
    (s : WsState) (room : Room) (h : mapGet s.rooms rid = some room)
    (ht : (getAttr s c).color = some room.turn) :
    handleMove c rid mfrom mto newFen s =
      ({ s with rooms :=
           mapSet s.rooms rid ({ room with fen := newFen, turn := flipTurn room.turn }) },
       (room.players.filter (fun p => p != c)).map
         (fun p => (p, ServerMsg.opponentMove mfrom mto newFen))) := by
  simp [handleMove, h, ht]

theorem handleLeave_eq_of_none (c : Nat) (rid : String) (s : WsState)
    (h : mapGet s.rooms rid = none) : handleLeave c rid s = (s, []) := by
  simp [handleLeave, h]

theorem handleLeave_eq_of_empty (c : Nat) (rid : String) (s : WsState) (room : Room)
    (h : mapGet s.rooms rid = some room)
    (he : room.players.filter (fun p => p != c) = []) :
    handleLeave c rid s = ({ s with rooms := mapDelete s.rooms rid }, []) := by
  simp [handleLeave, h, he]

theorem handleLeave_eq_of_nonempty (c : Nat) (rid : String) (s : WsState) (room : Room)
    (h : mapGet s.rooms rid = some room)
    (he : room.players.filter (fun p => p != c) ≠ []) :
    handleLeave c rid s =
      ({ s with rooms :=
           mapSet s.rooms rid ({ room with players := room.players.filter (fun p => p != c) }) },
       []) := by
  simp only [handleLeave, h]
  rw [if_neg (by simpa [List.isEmpty_iff] using he)]

theorem handleClose_eq_of_noRoomId (c : Nat) (s : WsState)
    (h : (getAttr s c).roomId = none) : handleClose c s = s := by
  simp [handleClose, h]

theorem handleClose_eq_of_emptyRoomId (c : Nat) (s : WsState)
    (h : (getAttr s c).roomId = some "") : handleClose c s = s := by
  simp [handleClose, h]

theorem handleClose_eq_of_noRoom (c : Nat) (s : WsState) (rid : String)
    (h : (getAttr s c).roomId = some rid) (hne : rid ≠ "")
    (hroom : mapGet s.rooms rid = none) : handleClose c s = s := by
  simp [handleClose, h, hne, hroom]

theorem handleClose_eq_of_empty (c : Nat) (s : WsState) (rid : String) (room : Room)
    (h : (getAttr s c).roomId = some rid) (hne : rid ≠ "")
    (hroom : mapGet s.rooms rid = some room)
    (he : room.players.filter (fun p => p != c) = []) :
    handleClose c s = { s with rooms := mapDelete s.rooms rid } := by
  simp [handleClose, h, hne, hroom, he]

theorem handleClose_eq_of_nonempty (c : Nat) (s : WsState) (rid : String) (room : Room)
    (h : (getAttr s c).roomId = some rid) (hne : rid ≠ "")
    (hroom : mapGet s.rooms rid = some room)
    (he : room.players.filter (fun p => p != c) ≠ []) :
    handleClose c s =
      { s with rooms :=
          mapSet s.rooms rid ({ room with players := room.players.filter (fun p => p != c) }) } := by
  simp [handleClose, h, hne, hroom, List.isEmpty_iff, he]

/-! ## Boundedness of each room handler -/

theorem handleJoin_bounded (c : Nat) (rid : String) (s : WsState)
    (h : roomsBounded s.rooms) : roomsBounded (handleJoin c rid s).1.rooms := by
  cases hroom : mapGet s.rooms rid with
  | none =>
    rw [handleJoin_eq_of_none c rid s hroom]
    exact roomsBounded_mapSet h (by simp)
  | some room =>
    by_cases hlen : room.players.length ≥ 2
    · rw [handleJoin_eq_of_full c rid s room hroom hlen]
      exact h
    · rw [handleJoin_eq_of_space c rid s room hroom hlen]
      refine roomsBounded_mapSet h ?_
      simp only [List.length_append, List.length_singleton]
      omega

theorem handleMove_bounded (c : Nat) (rid mfrom mto newFen : String) (s : WsState)
    (h : roomsBounded s.rooms) :
    roomsBounded (handleMove c rid mfrom mto newFen s).1.rooms := by
  cases hroom : mapGet s.rooms rid with
  | none =>
    rw [handleMove_eq_of_none c rid mfrom mto newFen s hroom]
    exact h
  | some room =>
    by_cases ht : (getAttr s c).color = some room.turn
    · rw [handleMove_eq_of_turn c rid mfrom mto newFen s room hroom ht]
      exact roomsBounded_mapSet h (h _ (mapGet_mem hroom))
    · rw [handleMove_eq_of_wrong_turn c rid mfrom mto newFen s room hroom ht]
      exact h

theorem handleLeave_bounded (c : Nat) (rid : String) (s : WsState)
    (h : roomsBounded s.rooms) : roomsBounded (handleLeave c rid s).1.rooms := by
  cases hroom : mapGet s.rooms rid with
  | none =>
    rw [handleLeave_eq_of_none c rid s hroom]
    exact h
  | some room =>
    by_cases he : room.players.filter (fun p => p != c) = []
    · rw [handleLeave_eq_of_empty c rid s room hroom he]
      exact roomsBounded_mapDelete h
    · rw [handleLeave_eq_of_nonempty c rid s room hroom he]
      refine roomsBounded_mapSet h ?_
      exact le_trans (List.length_filter_le _ _) (h _ (mapGet_mem hroom))

theorem handleClose_bounded (c : Nat) (s : WsState)
    (h : roomsBounded s.rooms) : roomsBounded (handleClose c s).rooms := by
  cases hrid : (getAttr s c).roomId with
  | none =>
    rw [handleClose_eq_of_noRoomId c s hrid]
    exact h
  | some rid =>
    by_cases hne : rid = ""
    · subst hne
      rw [handleClose_eq_of_emptyRoomId c s hrid]
      exact h
    · cases hroom : mapGet s.rooms rid with
      | none =>
        rw [handleClose_eq_of_noRoom c s rid hrid hne hroom]
        exact h
      | some room =>
        by_cases he : room.players.filter (fun p => p != c) = []
        · rw [handleClose_eq_of_empty c s rid room hrid hne hroom he]
          exact roomsBounded_mapDelete h
        · rw [handleClose_eq_of_nonempty c s rid room hrid hne hroom he]
          refine roomsBounded_mapSet h ?_
          exact le_trans (List.length_filter_le _ _) (h _ (mapGet_mem hroom))

/-! ## Claim theorems: the engine pool -/

/-- C1: `releaseEngine` is a plain synchronous function (it never suspends
and never fails); when the waiting queue is non-empty it hands the engine
to the queue's front entry — the first-enqueued, hence longest-waiting
caller, since a suspending `acquireEngine` appends to the back — resuming
that caller's acquire with the engine, and leaves the idle array untouched;
when the queue is empty it appends the engine to the idle array. -/
theorem release_serves_fifo_or_idles (engine : Nat) (s : PoolState) :
    (∀ w rest, s.waitingQueue = w :: rest →
      releaseEngine engine s =
        (some (w, engine), { enginePool := s.enginePool, waitingQueue := rest })) ∧
    (s.waitingQueue = [] →
      releaseEngine engine s =
        (none, { enginePool := s.enginePool ++ [engine], waitingQueue := [] })) ∧
    (∀ caller, s.enginePool = [] →
      acquireEngine caller s =
        (none, { enginePool := [], waitingQueue := s.waitingQueue ++ [caller] })) := by
  refine ⟨?_, ?_, ?_⟩
  · intro w rest h
    simp [releaseEngine, h]
  · intro h
    simp [releaseEngine, h]
  · intro caller h
    rcases s with ⟨pool, queue⟩
    simp at h
    subst h
    simp [acquireEngine]

/-- C1 witness: the theorem applied to concrete pool states. -/
theorem release_serves_fifo_or_idles_witness :
    releaseEngine 9 { enginePool := [], waitingQueue := [5, 7] } =
      (some (5, 9), { enginePool := [], waitingQueue := [7] }) ∧
    releaseEngine 9 { enginePool := [2], waitingQueue := [] } =
      (none, { enginePool := [2, 9], waitingQueue := [] }) ∧
    acquireEngine 4 { enginePool := [], waitingQueue := [5] } =
      (none, { enginePool := [], waitingQueue := [5, 4] }) :=
  ⟨(release_serves_fifo_or_idles 9 _).1 5 [7] rfl,
   (release_serves_fifo_or_idles 9 _).2.1 rfl,
   (release_serves_fifo_or_idles 9 _).2.2 4 rfl⟩

/-- C3: the pool invariant "idle collection non-empty → waiting queue
empty" holds for the freshly initialized pool and is preserved by every
`acquireEngine` (a caller is queued only when no engine is idle) and every
`releaseEngine` (an engine is idled only when no caller waits). -/
theorem pool_invariant_preserved (n caller engine : Nat) (s : PoolState)
    (h : poolInvariant s) :
    poolInvariant (initPoolState n) ∧
    poolInvariant (acquireEngine caller s).2 ∧
    poolInvariant (releaseEngine engine s).2 := by
  refine ⟨?_, ?_, ?_⟩
  · intro _
    rfl
  · rcases s with ⟨pool, queue⟩
    cases hg : pool.getLast? with
    | some e =>
      have hpool : pool ≠ [] := by
        intro hnil
        rw [hnil] at hg
        simp at hg
      have hq : queue = [] := h hpool
      subst hq
      simp [acquireEngine, hg, poolInvariant]
    | none =>
      have hpool : pool = [] := by
        cases pool with
        | nil => rfl
        | cons a l => simp [List.getLast?_concat] at hg
      subst hpool
      simp [acquireEngine, poolInvariant]
  · rcases s with ⟨pool, queue⟩
    cases queue with
    | nil => simp [releaseEngine, poolInvariant]
    | cons w rest =>
      have hpool : pool = [] := by
        by_contra hne
        have := h hne
        simp at this
      subst hpool
      simp [releaseEngine, poolInvariant]

/-- C3 witness: the theorem applied to a concrete invariant-satisfying
pool state. -/
theorem pool_invariant_preserved_witness :
    poolInvariant (initPoolState 2) ∧
    poolInvariant (acquireEngine 0 { enginePool := [1], waitingQueue := [] }).2 ∧
    poolInvariant (releaseEngine 1 { enginePool := [1], waitingQueue := [] }).2 :=
  pool_invariant_preserved 2 0 1 { enginePool := [1], waitingQueue := [] } (by decide)

/-! ## Claim theorems: the best-move handler -/

/-- C4: once an engine is held, every exit path of the handler body — the
success path and both failure points of the engine exchange — releases
that engine exactly once (the `finally` clause), and a failure of either
awaited exchange is answered with the 500 `Engine error` response; the
full route, on any request that acquires synchronously, records that same
single release. -/
theorem best_move_releases_once (engine caller : Nat) (fen : Option String)
    (positionResult : Except String Unit) (goResult : Except String String)
    (s : PoolState) :
    (bestMoveWithEngine engine positionResult goResult s).2.1 = [engine] ∧
    (∀ e, positionResult = .error e →
      (bestMoveWithEngine engine positionResult goResult s).1 =
        HttpResponse.serverError "Engine error") ∧
    (∀ e, goResult = .error e →
      (bestMoveWithEngine engine positionResult goResult s).1 =
        HttpResponse.serverError "Engine error") ∧
    (∀ mv, positionResult = .ok () → goResult = .ok mv →
      (bestMoveWithEngine engine positionResult goResult s).1 = HttpResponse.okMove mv) ∧
    statusOf (HttpResponse.serverError "Engine error") = 500 ∧
    (fenMissing fen = false → s.enginePool ≠ [] →
      ∃ eng, (bestMoveHandler caller fen positionResult goResult s).acquired = some eng ∧
        (bestMoveHandler caller fen positionResult goResult s).releases = [eng]) := by
  refine ⟨rfl, ?_, ?_, ?_, rfl, ?_⟩
  · intro e he
    subst he
    rfl
  · intro e he
    subst he
    cases positionResult with
    | ok u => rfl
    | error e' => rfl
  · intro mv hp hg
    subst hp
    subst hg
    rfl
  · intro hfen hpool
    obtain ⟨e, he⟩ : ∃ e, s.enginePool.getLast? = some e := by
      cases hg : s.enginePool.getLast? with
      | some e => exact ⟨e, rfl⟩
      | none =>
        exfalso
        apply hpool
        cases hl : s.enginePool with
        | nil => rfl
        | cons a l =>
          rw [hl] at hg
          simp [List.getLast?_concat] at hg
    refine ⟨e, ?_, ?_⟩ <;>
      simp [bestMoveHandler, hfen, acquireEngine, he, bestMoveWithEngine]

/-- C4 witness: a run whose search exchange fails still releases the
engine once and answers 500, at a concrete pool state. -/
theorem best_move_releases_once_witness :
    (bestMoveWithEngine 0 (Except.ok ()) (Except.error "crash")
        { enginePool := [], waitingQueue := [] }).2.1 = [0] ∧
    (bestMoveWithEngine 0 (Except.ok ()) (Except.error "crash")
        { enginePool := [], waitingQueue := [] }).1 =
      HttpResponse.serverError "Engine error" ∧
    ∃ eng, (bestMoveHandler 1 (some "k7/8/8/8/8/8/8/K7 w - - 0 1") (Except.ok ())
        (Except.error "crash") { enginePool := [0], waitingQueue := [] }).acquired = some eng ∧
      (bestMoveHandler 1 (some "k7/8/8/8/8/8/8/K7 w - - 0 1") (Except.ok ())
        (Except.error "crash") { enginePool := [0], waitingQueue := [] }).releases = [eng] :=
  ⟨(best_move_releases_once 0 1 (some "k7/8/8/8/8/8/8/K7 w - - 0 1") (Except.ok ())
      (Except.error "crash") { enginePool := [], waitingQueue := [] }).1,
   (best_move_releases_once 0 1 (some "k7/8/8/8/8/8/8/K7 w - - 0 1") (Except.ok ())
      (Except.error "crash") { enginePool := [], waitingQueue := [] }).2.2.1 "crash" rfl,
   (best_move_releases_once 0 1 (some "k7/8/8/8/8/8/8/K7 w - - 0 1") (Except.ok ())
      (Except.error "crash") { enginePool := [0], waitingQueue := [] }).2.2.2.2.2
     rfl (by decide)⟩

/-- C7: a request whose `fen` field is absent or the empty string is
answered with the 400 `Missing FEN string` response before the pool is
touched: nothing is acquired, nothing is released, and the pool state —
idle array and waiting queue alike — is returned unchanged. -/
theorem bad_request_pool_untouched (caller : Nat) (fen : Option String)
    (positionResult : Except String Unit) (goResult : Except String String)
    (s : PoolState) (h : fenMissing fen = true) :
    bestMoveHandler caller fen positionResult goResult s =
      { response := some (HttpResponse.badRequest "Missing FEN string"),
        acquired := none, releases := [], finalPool := s } ∧
    statusOf (HttpResponse.badRequest "Missing FEN string") = 400 := by
  constructor
  · simp [bestMoveHandler, h]
  · rfl

/-- C7 witness: the theorem applied to the empty-fen request at a concrete
pool state. -/
theorem bad_request_pool_untouched_witness :
    bestMoveHandler 0 (some "") (Except.ok ()) (Except.ok "e2e4")
        { enginePool := [3], waitingQueue := [] } =
      { response := some (HttpResponse.badRequest "Missing FEN string"),
        acquired := none, releases := [], finalPool := { enginePool := [3], waitingQueue := [] } } ∧
    statusOf (HttpResponse.badRequest "Missing FEN string") = 400 :=
  bad_request_pool_untouched 0 (some "") (Except.ok ()) (Except.ok "e2e4")
    { enginePool := [3], waitingQueue := [] } rfl

/-! ## Claim theorems: the room state machine -/

/-- C5: a join to an unseen room identifier creates the session with the
canonical starting position and turn "w"; the first joiner is assigned
color "w" and the second "b"; in both cases the joining connection's
single reply carries its assigned color together with the session's
current position and current turn, and its `color` / `roomId` attributes
are recorded. -/
theorem join_creates_and_assigns (c : Nat) (rid : String) (s : WsState) :
    (mapGet s.rooms rid = none →
      handleJoin c rid s =
        ({ rooms := mapSet s.rooms rid { players := [c], fen := INITIAL_FEN, turn := "w" },
           attrs := mapSet s.attrs c { color := some "w", roomId := some rid } },
         [(c, ServerMsg.joined "w" INITIAL_FEN "w")])) ∧
    (∀ room, mapGet s.rooms rid = some room → room.players.length = 1 →
      handleJoin c rid s =
        ({ rooms := mapSet s.rooms rid ({ room with players := room.players ++ [c] }),
           attrs := mapSet s.attrs c { color := some "b", roomId := some rid } },
         [(c, ServerMsg.joined "b" room.fen room.turn)])) := by
  constructor
  · intro h
    exact handleJoin_eq_of_none c rid s h
  · intro room h hlen
    rw [handleJoin_eq_of_space c rid s room h (by omega)]
    simp [hlen]

/-- C5 witness: the theorem applied to the empty registry (first joiner)
and to a one-player session (second joiner). -/
theorem join_creates_and_assigns_witness :
    handleJoin 0 "r1" { rooms := [], attrs := [] } =
      ({ rooms := mapSet [] "r1" { players := [0], fen := INITIAL_FEN, turn := "w" },
         attrs := mapSet [] 0 { color := some "w", roomId := some "r1" } },
       [(0, ServerMsg.joined "w" INITIAL_FEN "w")]) ∧
    handleJoin 1 "r1" sampleOne =
      ({ rooms := mapSet sampleOne.rooms "r1" { players := [0, 1], fen := INITIAL_FEN, turn := "w" },
         attrs := mapSet sampleOne.attrs 1 { color := some "b", roomId := some "r1" } },
       [(1, ServerMsg.joined "b" INITIAL_FEN "w")]) :=
  ⟨(join_creates_and_assigns 0 "r1" { rooms := [], attrs := [] }).1 rfl,
   (join_creates_and_assigns 1 "r1" sampleOne).2
     { players := [0], fen := INITIAL_FEN, turn := "w" } (by decide) rfl⟩

/-- C6: the participant bound: every room of a state whose rooms all hold
at most two players still holds at most two players after any inbound
message and after any connection close; and a join to a session that
already has two participants is answered with the `RoomFull` error to the
joining connection only, with the whole state unchanged. -/
theorem participants_at_most_two (c : Nat) (cmd : Option ClientCmd) (s : WsState)
    (h : roomsBounded s.rooms) :
    roomsBounded (handleMessage c cmd s).1.rooms ∧
    roomsBounded (handleClose c s).rooms ∧
    (∀ rid room, mapGet s.rooms rid = some room → room.players.length = 2 →
      handleJoin c rid s = (s, [(c, ServerMsg.errorMsg "房间已满")])) := by
  refine ⟨?_, handleClose_bounded c s h, ?_⟩
  · cases cmd with
    | none => exact h
    | some cmd' =>
      cases cmd' with
      | join rid => exact handleJoin_bounded c rid s h
      | move rid mfrom mto newFen => exact handleMove_bounded c rid mfrom mto newFen s h
      | leave rid => exact handleLeave_bounded c rid s h
      | unknown ty => exact h
  · intro rid room hroom hlen
    exact handleJoin_eq_of_full c rid s room hroom (by omega)

/-- C6 witness: the theorem applied to the full two-player session and a
third joining connection. -/
theorem participants_at_most_two_witness :
    roomsBounded (handleMessage 2 (some (ClientCmd.join "r1")) sampleFull).1.rooms ∧
    roomsBounded (handleClose 2 sampleFull).rooms ∧
    handleJoin 2 "r1" sampleFull = (sampleFull, [(2, ServerMsg.errorMsg "房间已满")]) :=
  ⟨(participants_at_most_two 2 (some (ClientCmd.join "r1")) sampleFull (by decide)).1,
   (participants_at_most_two 2 (some (ClientCmd.join "r1")) sampleFull (by decide)).2.1,
   (participants_at_most_two 2 (some (ClientCmd.join "r1")) sampleFull (by decide)).2.2
     "r1" { players := [0, 1], fen := INITIAL_FEN, turn := "w" } (by decide) rfl⟩

/-- C2: a move command for an unknown room is a silent no-op; a move by a
connection whose recorded color differs from the session's turn is
answered with the `NotYourTurn` error to the mover only and changes
nothing; an accepted move stores `newFen` verbatim, flips the turn, and
sends one `opponentMove` notification carrying (from, to, new position)
per non-mover entry of the participant list — never to the mover, and
exactly once to each participant other than the mover when the list has
no duplicates. -/
theorem move_turn_enforced (c : Nat) (rid mfrom mto newFen : String) (s : WsState) :
    (mapGet s.rooms rid = none → handleMove c rid mfrom mto newFen s = (s, [])) ∧
    (∀ room, mapGet s.rooms rid = some room →
      ((getAttr s c).color ≠ some room.turn →
        handleMove c rid mfrom mto newFen s = (s, [(c, ServerMsg.errorMsg "还没轮到你走")])) ∧
      ((getAttr s c).color = some room.turn →
        handleMove c rid mfrom mto newFen s =
          ({ s with rooms :=
               mapSet s.rooms rid ({ room with fen := newFen, turn := flipTurn room.turn }) },
           (room.players.filter (fun p => p != c)).map
             (fun p => (p, ServerMsg.opponentMove mfrom mto newFen))) ∧
        flipTurn "w" = "b" ∧ flipTurn "b" = "w" ∧
        (∀ m ∈ (handleMove c rid mfrom mto newFen s).2, m.1 ≠ c) ∧
        (room.players.Nodup → ∀ p ∈ room.players, p ≠ c →
          ((handleMove c rid mfrom mto newFen s).2.count
            (p, ServerMsg.opponentMove mfrom mto newFen)) = 1))) := by
  constructor
  · intro h
    exact handleMove_eq_of_none c rid mfrom mto newFen s h
  · intro room hroom
    constructor
    · intro ht
      exact handleMove_eq_of_wrong_turn c rid mfrom mto newFen s room hroom ht
    · intro ht
      refine ⟨handleMove_eq_of_turn c rid mfrom mto newFen s room hroom ht, rfl, rfl, ?_, ?_⟩
      · intro m hm
        rw [handleMove_eq_of_turn c rid mfrom mto newFen s room hroom ht] at hm
        simp only [List.mem_map, List.mem_filter] at hm
        obtain ⟨p, ⟨_hp, hpc⟩, rfl⟩ := hm
        simpa using hpc
      · intro hnd p hp hpc
        rw [handleMove_eq_of_turn c rid mfrom mto newFen s room hroom ht]
        rw [count_map_pair, List.count_filter (by simpa using hpc)]
        exact List.count_eq_one_of_mem hnd hp

/-- C2 witness: the theorem applied to an unknown room, to the
out-of-turn player of the sample session, and to its in-turn player. -/
theorem move_turn_enforced_witness :
    handleMove 0 "nowhere" "e2" "e4" "FEN2" { rooms := [], attrs := [] } =
      ({ rooms := [], attrs := [] }, []) ∧
    handleMove 1 "r1" "e7" "e5" "FEN2" sampleFull =
      (sampleFull, [(1, ServerMsg.errorMsg "还没轮到你走")]) ∧
    ((handleMove 0 "r1" "e2" "e4" "FEN2" sampleFull).2.count
      (1, ServerMsg.opponentMove "e2" "e4" "FEN2")) = 1 :=
  ⟨(move_turn_enforced 0 "nowhere" "e2" "e4" "FEN2" { rooms := [], attrs := [] }).1 rfl,
   ((move_turn_enforced 1 "r1" "e7" "e5" "FEN2" sampleFull).2
     { players := [0, 1], fen := INITIAL_FEN, turn := "w" } (by decide)).1 (by decide),
   (((move_turn_enforced 0 "r1" "e2" "e4" "FEN2" sampleFull).2
     { players := [0, 1], fen := INITIAL_FEN, turn := "w" } (by decide)).2
     (by decide)).2.2.2.2 (by decide) 1 (by decide) (by decide)⟩

/-- C10: join has no duplicate-membership check: a connection already in a
room with a free seat is accepted again, is pushed a second time (so it
then occupies both participant slots), and its per-connection color is
overwritten with the color of the latest join ("b", since the room it
rejoins has exactly one occupied seat). -/
theorem join_allows_duplicate (c : Nat) (rid : String) (s : WsState) (room : Room)
    (h : mapGet s.rooms rid = some room) (hmem : c ∈ room.players)
    (hlen : room.players.length < 2) :
    handleJoin c rid s =
      ({ rooms := mapSet s.rooms rid ({ room with players := room.players ++ [c] }),
         attrs := mapSet s.attrs c { color := some "b", roomId := some rid } },
       [(c, ServerMsg.joined "b" room.fen room.turn)]) ∧
    (room.players ++ [c]).count c ≥ 2 := by
  have h1 : room.players.length ≠ 0 := by
    intro h0
    rw [List.length_eq_zero] at h0
    rw [h0] at hmem
    simp at hmem
  constructor
  · rw [handleJoin_eq_of_space c rid s room h (by omega)]
    simp [h1]
  · have hpos : 0 < room.players.count c := List.count_pos_iff.mpr hmem
    rw [List.count_append]
    have h2 : ([c] : List Nat).count c = 1 := by simp
    omega

/-- C10 witness: connection 0, the lone occupant of room "r1", joins it
again and ends up holding both seats. -/
theorem join_allows_duplicate_witness :
    handleJoin 0 "r1" sampleOne =
      ({ rooms := mapSet sampleOne.rooms "r1" { players := [0, 0], fen := INITIAL_FEN, turn := "w" },
         attrs := mapSet sampleOne.attrs 0 { color := some "b", roomId := some "r1" } },
       [(0, ServerMsg.joined "b" INITIAL_FEN "w")]) ∧
    ([0, 0] : List Nat).count 0 ≥ 2 :=
  join_allows_duplicate 0 "r1" sampleOne { players := [0], fen := INITIAL_FEN, turn := "w" }
    (by decide) (by decide) (by decide)

/-- C8 counterexample: the close handler's guard `if (roomId && ...)`
treats the empty-string room identifier as falsy, so a participant of the
room named "" is NOT removed from that room's participant list when its
connection closes: the state is returned untouched, with connection 0
still in the player list. -/
theorem close_keeps_empty_room_id_member :
    handleClose 0
      { rooms := [("", { players := [0], fen := INITIAL_FEN, turn := "w" })],
        attrs := [(0, { color := some "w", roomId := some "" })] } =
      { rooms := [("", { players := [0], fen := INITIAL_FEN, turn := "w" })],
        attrs := [(0, { color := some "w", roomId := some "" })] } := by
  rfl

/-- C8 (amended): a leave removes the connection from the named room's
participant list unconditionally (all occurrences), is a no-op when the
connection is absent from a non-empty list, and deletes the room's
registry entry when the list empties, after which a join to the same
identifier recreates a fresh session with the canonical starting
position; a connection close runs the same cleanup on the room recorded
in the connection's room attribute, except when that identifier is the
empty string (falsy in the source's guard), in which case the close
removes nothing. -/
theorem leave_and_close_cleanup (c : Nat) (rid : String) (s : WsState) :
    (∀ room, mapGet s.rooms rid = some room →
      (c ∉ room.players → room.players ≠ [] → handleLeave c rid s = (s, [])) ∧
      (room.players.filter (fun p => p != c) = [] →
        handleLeave c rid s = ({ s with rooms := mapDelete s.rooms rid }, []) ∧
        mapGet (mapDelete s.rooms rid) rid = none) ∧
      (room.players.filter (fun p => p != c) ≠ [] →
        handleLeave c rid s =
          ({ s with rooms :=
               mapSet s.rooms rid ({ room with players := room.players.filter (fun p => p != c) }) },
           []))) ∧
    (mapGet s.rooms rid = none →
      (handleJoin c rid s).1.rooms =
        mapSet s.rooms rid { players := [c], fen := INITIAL_FEN, turn := "w" }) ∧
    ((getAttr s c).roomId = some "" → handleClose c s = s) ∧
    (∀ rid' room, (getAttr s c).roomId = some rid' → rid' ≠ "" →
      mapGet s.rooms rid' = some room →
      (room.players.filter (fun p => p != c) = [] →
        handleClose c s = { s with rooms := mapDelete s.rooms rid' }) ∧
      (room.players.filter (fun p => p != c) ≠ [] →
        handleClose c s =
          { s with rooms :=
              mapSet s.rooms rid' ({ room with players := room.players.filter (fun p => p != c) }) })) := by
  refine ⟨?_, ?_, ?_, ?_⟩
  · intro room hroom
    refine ⟨?_, ?_, ?_⟩
    · intro hnm hne
      have hf : room.players.filter (fun p => p != c) = room.players := by
        apply List.filter_eq_self.mpr
        intro a ha
        simp only [bne_iff_ne, ne_eq, decide_eq_true_eq]
        intro hac
        exact hnm (hac ▸ ha)
      have hre : ({ room with players := room.players.filter (fun p => p != c) }) = room := by
        rw [hf]
      rw [handleLeave_eq_of_nonempty c rid s room hroom (by rw [hf]; exact hne), hre,
        mapSet_eq_self s.rooms rid room hroom]
    · intro he
      exact ⟨handleLeave_eq_of_empty c rid s room hroom he, mapGet_mapDelete_self s.rooms rid⟩
    · intro he
      exact handleLeave_eq_of_nonempty c rid s room hroom he
  · intro h
    rw [handleJoin_eq_of_none c rid s h]
  · intro h
    exact handleClose_eq_of_emptyRoomId c s h
  · intro rid' room h hne hroom
    exact ⟨handleClose_eq_of_empty c s rid' room h hne hroom,
      handleClose_eq_of_nonempty c s rid' room h hne hroom⟩

/-- C8 witness: the theorem applied to concrete sessions: a leave by an
absent connection, a leave that empties and deletes room "r1", a join
that recreates it, a close with the falsy empty room identifier, and a
close that empties room "r1". -/
theorem leave_and_close_cleanup_witness :
    handleLeave 5 "r1" sampleOne = (sampleOne, []) ∧
    (handleLeave 0 "r1" sampleOne =
      ({ sampleOne with rooms := mapDelete sampleOne.rooms "r1" }, []) ∧
     mapGet (mapDelete sampleOne.rooms "r1") "r1" = none) ∧
    (handleJoin 0 "r1" { rooms := [], attrs := [] }).1.rooms =
      mapSet [] "r1" { players := [0], fen := INITIAL_FEN, turn := "w" } ∧
    handleClose 0
      { rooms := [("", { players := [0], fen := INITIAL_FEN, turn := "w" })],
        attrs := [(0, { color := some "w", roomId := some "" })] } =
      { rooms := [("", { players := [0], fen := INITIAL_FEN, turn := "w" })],
        attrs := [(0, { color := some "w", roomId := some "" })] } ∧
    handleClose 0 sampleOne = { sampleOne with rooms := mapDelete sampleOne.rooms "r1" } :=
  ⟨((leave_and_close_cleanup 5 "r1" sampleOne).1
      { players := [0], fen := INITIAL_FEN, turn := "w" } (by decide)).1
      (by decide) (by decide),
   ((leave_and_close_cleanup 0 "r1" sampleOne).1
      { players := [0], fen := INITIAL_FEN, turn := "w" } (by decide)).2.1 (by decide),
   (leave_and_close_cleanup 0 "r1" { rooms := [], attrs := [] }).2.1 rfl,
   (leave_and_close_cleanup 0 ""
      { rooms := [("", { players := [0], fen := INITIAL_FEN, turn := "w" })],
        attrs := [(0, { color := some "w", roomId := some "" })] }).2.2.1 (by decide),
   ((leave_and_close_cleanup 0 "r1" sampleOne).2.2.2 "r1"
      { players := [0], fen := INITIAL_FEN, turn := "w" } (by decide) (by decide)
      (by decide)).1 (by decide)⟩

/-- C9 counterexample: a message that fails to parse is swallowed by the
catch block, which only logs: the sending connection receives no reply at
all (the send list is empty), so this error is recovered but never
reported to the immediate caller. -/
theorem parse_failure_unreported :
    (handleMessage 0 none { rooms := [], attrs := [] }).2 = [] := by
  rfl

/-- C9 (amended): inbound errors are recovered locally: an unrecognized
command type is answered with the `UnknownCommand` error to the sending
connection, with no state change; a message that fails to parse is caught
and only logged — no reply is sent and no state changes; and every error
reply produced by any command goes to the offending connection itself,
never to another connection or room. -/
theorem errors_recovered_locally (c : Nat) (cmd : Option ClientCmd) (ty : String)
    (s : WsState) :
    handleMessage c none s = (s, []) ∧
    handleMessage c (some (.unknown ty)) s = (s, [(c, ServerMsg.errorMsg "未知消息类型")]) ∧
    (∀ m ∈ (handleMessage c cmd s).2, isErrorMsg m.2 = true → m.1 = c) := by
  refine ⟨rfl, rfl, ?_⟩
  cases cmd with
  | none => intro m hm; simp [handleMessage] at hm
  | some cmd' =>
    cases cmd' with
    | join rid =>
      intro m hm _herr
      cases hroom : mapGet s.rooms rid with
      | none =>
        rw [show handleMessage c (some (.join rid)) s = handleJoin c rid s from rfl,
          handleJoin_eq_of_none c rid s hroom] at hm
        simp at hm
        simp [hm]
      | some room =>
        by_cases hlen : room.players.length ≥ 2
        · rw [show handleMessage c (some (.join rid)) s = handleJoin c rid s from rfl,
            handleJoin_eq_of_full c rid s room hroom hlen] at hm
          simp at hm
          simp [hm]
        · rw [show handleMessage c (some (.join rid)) s = handleJoin c rid s from rfl,
            handleJoin_eq_of_space c rid s room hroom hlen] at hm
          simp at hm
          simp [hm]
    | move rid mfrom mto newFen =>
      intro m hm herr
      cases hroom : mapGet s.rooms rid with
      | none =>
        rw [show handleMessage c (some (.move rid mfrom mto newFen)) s =
            handleMove c rid mfrom mto newFen s from rfl,
          handleMove_eq_of_none c rid mfrom mto newFen s hroom] at hm
        simp at hm
      | some room =>
        by_cases ht : (getAttr s c).color = some room.turn
        · rw [show handleMessage c (some (.move rid mfrom mto newFen)) s =
              handleMove c rid mfrom mto newFen s from rfl,
            handleMove_eq_of_turn c rid mfrom mto newFen s room hroom ht] at hm
          simp only [List.mem_map, List.mem_filter] at hm
          obtain ⟨p, _hp, rfl⟩ := hm
          simp [isErrorMsg] at herr
        · rw [show handleMessage c (some (.move rid mfrom mto newFen)) s =
              handleMove c rid mfrom mto newFen s from rfl,
            handleMove_eq_of_wrong_turn c rid mfrom mto newFen s room hroom ht] at hm
          simp at hm
          simp [hm]
    | leave rid =>
      intro m hm _herr
      cases hroom : mapGet s.rooms rid with
      | none =>
        rw [show handleMessage c (some (.leave rid)) s = handleLeave c rid s from rfl,
          handleLeave_eq_of_none c rid s hroom] at hm
        simp at hm
      | some room =>
        by_cases he : room.players.filter (fun p => p != c) = []
        · rw [show handleMessage c (some (.leave rid)) s = handleLeave c rid s from rfl,
            handleLeave_eq_of_empty c rid s room hroom he] at hm
          simp at hm
        · rw [show handleMessage c (some (.leave rid)) s = handleLeave c rid s from rfl,
            handleLeave_eq_of_nonempty c rid s room hroom he] at hm
          simp at hm
    | unknown ty' =>
      intro m hm _herr
      simp [handleMessage] at hm
      simp [hm]

/-- C9 witness: the theorem applied to a parse failure, an unrecognized
command, and the error reply the unrecognized command produces. -/
theorem errors_recovered_locally_witness :
    handleMessage 0 none { rooms := [], attrs := [] } = ({ rooms := [], attrs := [] }, []) ∧
    handleMessage 0 (some (.unknown "ping")) { rooms := [], attrs := [] } =
      ({ rooms := [], attrs := [] }, [(0, ServerMsg.errorMsg "未知消息类型")]) ∧
    ((0 : Nat), ServerMsg.errorMsg "未知消息类型").1 = 0 :=
  ⟨(errors_recovered_locally 0 none "ping" { rooms := [], attrs := [] }).1,
   (errors_recovered_locally 0 (some (.unknown "ping")) "ping" { rooms := [], attrs := [] }).2.1,
   (errors_recovered_locally 0 (some (.unknown "ping")) "ping"
      { rooms := [], attrs := [] }).2.2
     (0, ServerMsg.errorMsg "未知消息类型") (by decide) rfl⟩

end ChessAppServer
